import Mathlib

/-!
A verification development for the `blog-server` crate of the rust-blog
repository.  The Rust source is shallowly embedded: pure functions become
Lean functions, the database-backed repositories become explicit
state-passing functions over list-based store states that realise the SQL
statements' semantics, and fallible Rust code (`Result<_, DomainError>`)
becomes `Except DomainError _`.

Conventions of the embedding:
* Rust `i64` values (ids, timestamps) are embedded as `Int`; no `i64`
  arithmetic that can overflow occurs in the embedded code paths.
* Rust `u32` values (pagination) are embedded as `Nat`; the one spot where
  a `u32` addition can overflow (`(offset / limit) + 1` in the two list
  handlers) is embedded with an explicit `% 2^32`, the wrap-around
  semantics of a release build (a debug build traps on the same input).
* Rust `&str`/`String` are embedded as `String`.  `str::trim`,
  `str::to_lowercase`, `str::len`, `str::chars().count()` and
  `str::is_empty` are embedded by `rustTrim`, `rustToLower`, `byteLen`,
  `String.length` and `byteLen _ = 0` below.  `rustTrim`/`rustToLower`
  implement the ASCII fragment of the Unicode-aware Rust originals; the
  embedded validators only ever apply them in ways the claims depend on
  through that fragment.
* The `argon2` password-hashing function itself is an external crate; the
  digest computation is kept abstract as a parameter
  `phf : String → String → String` (salt, then password, to digest), while
  the PHC-string encoding, parsing, and comparison logic that
  `auth_service.rs` relies on is embedded concretely.
* The `validator` crate's email syntax check is kept abstract as a
  parameter `emailValid : String → Bool`.
* `jsonwebtoken::encode` is embedded as a total function producing the
  usual three-part dotted token shape; the claims only depend on the token
  being a string that is non-empty.
-/

namespace Blog

/-- Decidable equality of `Except` results, used to state and decide
round-trip well-formedness of stored rows. -/
instance exceptDecEq {ε α : Type} [DecidableEq ε] [DecidableEq α] :
    DecidableEq (Except ε α)
  | .error a, .error b =>
    if h : a = b then isTrue (by rw [h]) else isFalse (fun hh => h (by injection hh))
  | .error _, .ok _ => isFalse (fun hh => Except.noConfusion hh)
  | .ok _, .error _ => isFalse (fun hh => Except.noConfusion hh)
  | .ok a, .ok b =>
    if h : a = b then isTrue (by rw [h]) else isFalse (fun hh => h (by injection hh))

/-! ## String model: the fragment of Rust string primitives the code uses -/

/-- Embeds Rust `char::is_whitespace` (ASCII fragment). -/
def rustIsWs (c : Char) : Bool := c.isWhitespace

/-- Trailing-and-leading whitespace removal on a character list. -/
def trimChars (l : List Char) : List Char :=
  ((l.dropWhile rustIsWs).reverse.dropWhile rustIsWs).reverse

/-- Embeds Rust `str::trim`. -/
def rustTrim (s : String) : String := ⟨trimChars s.data⟩

/-- Embeds Rust `char::to_lowercase` (ASCII fragment: `A..Z` map to
`a..z`, everything else is unchanged). -/
def lowerChar (c : Char) : Char :=
  if 65 ≤ c.toNat ∧ c.toNat ≤ 90 then Char.ofNat (c.toNat + 32) else c

/-- Embeds Rust `str::to_lowercase` (ASCII fragment). -/
def rustToLower (s : String) : String := ⟨s.data.map lowerChar⟩

/-- Embeds Rust `str::len`: the UTF-8 byte length. -/
def byteLen (s : String) : Nat := (s.data.map Char.utf8Size).sum

/-! ## Domain errors (`src/blog-server/src/domain/error.rs`) -/

/-- `DomainError` from `domain/error.rs`.  The `Validation` payloads are
`&'static str` in Rust. -/
inductive DomainError where
  | Validation (field : String) (message : String)
  | NotFound (resource : String)
  | AlreadyExists (resource : String)
  | Forbidden
  | InvalidCredentials
  | Unexpected (detail : String)
deriving DecidableEq

/-- A single-quote character, used by the derived `Display` format. -/
def squote : String := String.singleton (Char.ofNat 39)

/-- The `thiserror`-derived `Display` impl on `DomainError`
(`err.to_string()` in the Rust source). -/
def DomainError.message : DomainError → String
  | .Validation field msg =>
      "validation failed for " ++ squote ++ field ++ squote ++ ": " ++ msg
  | .NotFound r => "resource not found: " ++ r
  | .AlreadyExists r => "resource already exists: " ++ r
  | .Forbidden => "forbidden"
  | .InvalidCredentials => "invalid credentials"
  | .Unexpected d => "unexpected domain error: " ++ d

/-! ## User domain (`src/blog-server/src/domain/user.rs`) -/

structure RegisterRequest where
  username : String
  email : String
  password : String
deriving DecidableEq

structure LoginRequest where
  username : String
  password : String
deriving DecidableEq

/-- `normalize_register_username` from `domain/user.rs`.  Note the Rust
code checks `username.len()`, i.e. the UTF-8 *byte* length. -/
def normalize_register_username (username : String) : Except DomainError String :=
  let username := rustTrim username
  if byteLen username < 3 ∨ byteLen username > 64 then
    .error (.Validation "username" "must be 3..64 chars")
  else
    .ok username

/-- `normalize_email` from `domain/user.rs`, with the `validator` crate's
`validate_email` abstracted as `emailValid`. -/
def normalize_email (emailValid : String → Bool) (email : String) :
    Except DomainError String :=
  let email := rustToLower (rustTrim email)
  if ¬ emailValid email then
    .error (.Validation "email" "must be a valid email")
  else
    .ok email

/-- `RegisterRequest::validate` from `domain/user.rs`: username, then
email, then the password character count (`chars().count()`). -/
def RegisterRequest.validate (emailValid : String → Bool)
    (req : RegisterRequest) : Except DomainError RegisterRequest := do
  let username ← normalize_register_username req.username
  let email ← normalize_email emailValid req.email
  let password_len := req.password.length
  if password_len < 8 ∨ password_len > 128 then
    .error (.Validation "password" "must be 8..128 chars")
  else
    .ok ⟨username, email, req.password⟩

/-- `LoginRequest::validate` from `domain/user.rs`. -/
def LoginRequest.validate (req : LoginRequest) :
    Except DomainError LoginRequest :=
  let username := rustTrim req.username
  if byteLen username = 0 ∨ byteLen username > 64 then
    .error (.Validation "username" "must be 1..64 chars")
  else if byteLen req.password = 0 then
    .error (.Validation "password" "must not be empty")
  else
    .ok ⟨username, req.password⟩

structure User where
  id : Int
  username : String
  email : String
  created_at : Int
deriving DecidableEq

/-- `User::new` from `domain/user.rs`: re-validates all fields. -/
def User.new (emailValid : String → Bool) (id : Int) (username email : String)
    (created_at : Int) : Except DomainError User := do
  if id ≤ 0 then
    .error (.Validation "id" "must be > 0")
  else
    let username ← normalize_register_username username
    let email ← normalize_email emailValid email
    .ok ⟨id, username, email, created_at⟩

/-! ## Password hashing (`src/blog-server/src/application/auth_service.rs`)

The argon2id digest computation lives in the external `argon2` crate and
is abstracted as `phf : String → String → String`.  The PHC string
encoding `$argon2id$v=19$m=19456,t=2,p=1$<salt>$<digest>` produced by
`hash_password` and parsed by `PasswordHash::new` inside
`verify_password` is embedded concretely: a string that does not parse is
the "malformed hash" case, which `verify_password` maps to
`DomainError::Unexpected`, while a digest mismatch on a well-formed hash
is `DomainError::InvalidCredentials`. -/

/-- Split a character list at every occurrence of `sep` (the field
structure of a PHC hash string, whose separator is the dollar sign). -/
def splitChar (sep : Char) : List Char → List (List Char)
  | [] => [[]]
  | c :: cs =>
    if c = sep then
      [] :: splitChar sep cs
    else
      match splitChar sep cs with
      | [] => [[c]]
      | r :: rs => (c :: r) :: rs

/-- The dollar-sign separator of PHC hash strings. -/
def dollar : Char := Char.ofNat 36

/-- The fixed argon2 parameter segment the service uses
(`Params::new(19 * 1024, 2, 1, None)` serialized by the `argon2` crate). -/
def argonParams : String := "m=19456,t=2,p=1"

/-- `AuthService::hash_password`, with the fresh random salt passed in
explicitly and the argon2id digest computation abstracted as `phf`. -/
def hash_password (phf : String → String → String) (salt pw : String) : String :=
  "" ++ String.singleton dollar ++ "argon2id"
     ++ String.singleton dollar ++ "v=19"
     ++ String.singleton dollar ++ argonParams
     ++ String.singleton dollar ++ salt
     ++ String.singleton dollar ++ phf salt pw

/-- Parsing of a PHC argon2id hash string into its salt and digest
(`PasswordHash::new` in `verify_password`); `none` is the malformed-hash
case. -/
def parse_hash (s : String) : Option (String × String) :=
  match (splitChar dollar s.data).map String.mk with
  | [e, alg, ver, params, salt, digest] =>
    if e = "" ∧ alg = "argon2id" ∧ ver = "v=19" ∧ params = argonParams then
      some (salt, digest)
    else
      none
  | _ => none

/-- `AuthService::verify_password`: a hash string that fails to parse is an
`Unexpected` error; otherwise the argon2id digest of the supplied password
is recomputed with the hash's salt and compared, a mismatch being the
`PasswordHashError::Password` case, mapped to `InvalidCredentials`. -/
def verify_password (phf : String → String → String) (raw hash : String) :
    Except DomainError Unit :=
  match parse_hash hash with
  | none => .error (.Unexpected "password hash parse error")
  | some (salt, digest) =>
    if phf salt raw = digest then .ok () else .error .InvalidCredentials

/-- `AuthService::DUMMY_PASSWORD_HASH` from `auth_service.rs`. -/
def DUMMY_PASSWORD_HASH : String :=
  "$argon2id$v=19$m=19456,t=2,p=1$MDEyMzQ1Njc4OWFiY2RlZg$gwN6hT1sNdk9kI95f7n2Gl3fL0qRmBf2Ffkj2r90/0M"

/-! ## Token service (`src/blog-server/src/infrastructure/jwt.rs`) -/

structure JwtService where
  secret : String
  ttl_seconds : Int
deriving DecidableEq

/-- `JwtService::new`: a non-positive TTL falls back to the 24h default. -/
def JwtService.new (secret : String) (ttl_seconds : Int) : JwtService :=
  ⟨secret, if ttl_seconds > 0 then ttl_seconds else 24 * 60 * 60⟩

/-- The serialized claims segment of a token (`Claims` in `jwt.rs`). -/
def claimsPayload (user_id : Int) (username : String) (exp : Int) : String :=
  toString user_id ++ ";" ++ username ++ ";" ++ toString exp

/-- `JwtService::generate_token`: `jsonwebtoken::encode` with header
`HS256`, embedding `user_id`, `username` and `exp = now + ttl`.  The
encoder is embedded as the usual `header.payload.signature` shape; the
claims only rely on the result being non-empty. -/
def generate_token (jwt : JwtService) (now user_id : Int) (username : String) :
    String :=
  let exp := now + jwt.ttl_seconds
  "eyJhbGciOiJIUzI1NiJ9." ++ claimsPayload user_id username exp
    ++ ".sig:" ++ jwt.secret

/-! ## User store (`src/blog-server/src/data/repositories/postgres/user_repository.rs`)

The Postgres-backed repository is embedded as explicit state passing over
a list of rows.  `create_user` realises the `INSERT ... RETURNING` with
the two unique constraints `users_username_key` and `users_email_key`
(violations surface through `map_user_db_error` as
`AlreadyExists("username")` / `AlreadyExists("email")`), and
`find_by_username` the `SELECT ... WHERE username = $1`.  Both re-validate
the returned row through `User::new`, mapping a failure to `Unexpected`
exactly as the Rust code does. -/

structure NewUser where
  username : String
  email : String
  password_hash : String
deriving DecidableEq

structure UserCredentials where
  user : User
  password_hash : String
deriving DecidableEq

/-- The state of the `users` table, plus the id sequence and clock. -/
structure UserStore where
  users : List UserCredentials
  next_id : Int
  now : Int
deriving DecidableEq

/-- `PostgresUserRepository::create_user`. -/
def create_user (emailValid : String → Bool) (s : UserStore) (input : NewUser) :
    Except DomainError (User × UserStore) :=
  if s.users.any (fun c => c.user.username == input.username) then
    .error (.AlreadyExists "username")
  else if s.users.any (fun c => c.user.email == input.email) then
    .error (.AlreadyExists "email")
  else
    match User.new emailValid s.next_id input.username input.email s.now with
    | .error e => .error (.Unexpected e.message)
    | .ok user =>
      .ok (user,
        { s with
            users := s.users ++ [⟨user, input.password_hash⟩]
            next_id := s.next_id + 1 })

/-- `PostgresUserRepository::find_by_username`. -/
def find_by_username (emailValid : String → Bool) (s : UserStore)
    (username : String) : Except DomainError (Option UserCredentials) :=
  match s.users.find? (fun c => c.user.username == username) with
  | none => .ok none
  | some row =>
    match User.new emailValid row.user.id row.user.username row.user.email
        row.user.created_at with
    | .error e => .error (.Unexpected e.message)
    | .ok user => .ok (some ⟨user, row.password_hash⟩)

/-! ## Auth service (`src/blog-server/src/application/auth_service.rs`) -/

structure AuthResult where
  user : User
  access_token : String
deriving DecidableEq

/-- `AuthService::into_new_user`. -/
def into_new_user (req : RegisterRequest) (password_hash : String) : NewUser :=
  ⟨req.username, req.email, password_hash⟩

/-- `AuthService::register`: validate, hash, persist, issue token. -/
def register (emailValid : String → Bool) (phf : String → String → String)
    (jwt : JwtService) (salt : String) (s : UserStore) (req : RegisterRequest) :
    Except DomainError (AuthResult × UserStore) := do
  let req ← req.validate emailValid
  let password_hash := hash_password phf salt req.password
  let new_user := into_new_user req password_hash
  let (user, s) ← create_user emailValid s new_user
  let access_token := generate_token jwt s.now user.id user.username
  .ok (⟨user, access_token⟩, s)

/-- `AuthService::login`.  When the username is not found the service
verifies the supplied password against `DUMMY_PASSWORD_HASH`, silences the
`Ok`/`InvalidCredentials` outcomes, returns any *other* error as-is
(`Err(err) => return Err(err)`), and otherwise fails with the generic
`InvalidCredentials`. -/
def login (emailValid : String → Bool) (phf : String → String → String)
    (jwt : JwtService) (s : UserStore) (req : LoginRequest) :
    Except DomainError AuthResult := do
  let req ← req.validate
  match ← find_by_username emailValid s req.username with
  | none =>
    match verify_password phf req.password DUMMY_PASSWORD_HASH with
    | .ok () | .error .InvalidCredentials => .error .InvalidCredentials
    | .error e => .error e
  | some user_creds => do
    let _ ← verify_password phf req.password user_creds.password_hash
    let access_token :=
      generate_token jwt s.now user_creds.user.id user_creds.user.username
    .ok ⟨user_creds.user, access_token⟩

/-! ## Post domain (`src/blog-server/src/domain/post.rs`) -/

structure Post where
  id : Int
  title : String
  content : String
  author_id : Int
  created_at : Int
  updated_at : Int
deriving DecidableEq

structure CreatePostRequest where
  title : String
  content : String
deriving DecidableEq

structure UpdatePostRequest where
  title : String
  content : String
deriving DecidableEq

/-- `normalize_title` from `domain/post.rs` (`title.len()` is the UTF-8
byte length). -/
def normalize_title (title : String) : Except DomainError String :=
  let title := rustTrim title
  if byteLen title = 0 ∨ byteLen title > 255 then
    .error (.Validation "title" "must be 1..255 chars")
  else
    .ok title

/-- `normalize_content` from `domain/post.rs`. -/
def normalize_content (content : String) : Except DomainError String :=
  let content := rustTrim content
  if byteLen content = 0 then
    .error (.Validation "content" "must not be empty")
  else
    .ok content

/-- `CreatePostRequest::validate`. -/
def CreatePostRequest.validate (req : CreatePostRequest) :
    Except DomainError CreatePostRequest := do
  let title ← normalize_title req.title
  let content ← normalize_content req.content
  .ok ⟨title, content⟩

/-- `UpdatePostRequest::validate`. -/
def UpdatePostRequest.validate (req : UpdatePostRequest) :
    Except DomainError UpdatePostRequest := do
  let title ← normalize_title req.title
  let content ← normalize_content req.content
  .ok ⟨title, content⟩

/-- `validate_positive_i64` from `domain/post.rs`. -/
def validate_positive_i64 (field : String) (value : Int) :
    Except DomainError Unit :=
  if value ≤ 0 then .error (.Validation field "must be > 0") else .ok ()

/-- `Post::new` from `domain/post.rs`. -/
def Post.new (id : Int) (title content : String) (author_id : Int)
    (created_at updated_at : Int) : Except DomainError Post := do
  let _ ← validate_positive_i64 "id" id
  let _ ← validate_positive_i64 "author_id" author_id
  let title ← normalize_title title
  let content ← normalize_content content
  if updated_at < created_at then
    .error (.Validation "updated_at" "must be >= created_at")
  else
    .ok ⟨id, title, content, author_id, created_at, updated_at⟩

/-! ## Post store (`src/blog-server/src/data/repositories/postgres/post_repository.rs`)

Embedded, like the user store, as explicit state passing over the rows of
the `posts` table.  Every row returned by a query goes through
`map_row_to_post`, i.e. `Post::new` with failures mapped to `Unexpected`,
exactly as in the Rust source. -/

structure NewPost where
  title : String
  content : String
  author_id : Int
deriving DecidableEq

structure PostPatch where
  title : String
  content : String
deriving DecidableEq

structure Pagination where
  page : Nat
  page_size : Nat
deriving DecidableEq

/-- The state of the `posts` table, plus the clock (`NOW()`). -/
structure PostStore where
  posts : List Post
  now : Int
deriving DecidableEq

/-- `map_row_to_post` from the Postgres post repository. -/
def map_row_to_post (row : Post) : Except DomainError Post :=
  match Post.new row.id row.title row.content row.author_id row.created_at
      row.updated_at with
  | .error e => .error (.Unexpected e.message)
  | .ok p => .ok p

/-- `PostgresPostRepository::get_post` (`SELECT ... WHERE id = $1`). -/
def repo_get_post (s : PostStore) (id : Int) :
    Except DomainError (Option Post) :=
  match s.posts.find? (fun p => p.id == id) with
  | none => .ok none
  | some row => do
    let p ← map_row_to_post row
    .ok (some p)

/-- `PostgresPostRepository::update_post_owned`: the single conditional
`UPDATE ... SET title, content, updated_at = NOW() WHERE id = $1 AND
author_id = $2 RETURNING ...`.  No matching row yields `none` and leaves
the table unchanged. -/
def update_post_owned (s : PostStore) (post_id owner_id : Int)
    (patch : PostPatch) : Except DomainError (Option Post) × PostStore :=
  match s.posts.find? (fun p => p.id == post_id && p.author_id == owner_id) with
  | none => (.ok none, s)
  | some row =>
    let row2 : Post :=
      { row with title := patch.title, content := patch.content,
                 updated_at := s.now }
    let table :=
      s.posts.map (fun p =>
        if p.id == post_id && p.author_id == owner_id then row2 else p)
    match map_row_to_post row2 with
    | .error e => (.error e, { s with posts := table })
    | .ok p => (.ok (some p), { s with posts := table })

/-- `PostgresPostRepository::delete_post` (`DELETE ... WHERE id = $1`,
returning `rows_affected() > 0`). -/
def repo_delete_post (s : PostStore) (id : Int) : Bool × PostStore :=
  (s.posts.any (fun p => p.id == id),
   { s with posts := s.posts.filter (fun p => ¬ p.id == id) })

/-- Insertion step of the `ORDER BY created_at DESC, id DESC` sort. -/
def insertPostDesc (p : Post) : List Post → List Post
  | [] => [p]
  | q :: qs =>
    if p.created_at > q.created_at ∨
        (p.created_at = q.created_at ∧ p.id ≥ q.id) then
      p :: q :: qs
    else
      q :: insertPostDesc p qs

/-- `ORDER BY created_at DESC, id DESC` as an insertion sort. -/
def sortPostsDesc : List Post → List Post
  | [] => []
  | p :: ps => insertPostDesc p (sortPostsDesc ps)

/-- `rows.into_iter().map(map_row_to_post).collect()`: the first failing
row aborts with its error. -/
def collectRows : List Post → Except DomainError (List Post)
  | [] => .ok []
  | row :: rows => do
    let p ← map_row_to_post row
    let ps ← collectRows rows
    .ok (p :: ps)

/-- `PostgresPostRepository::list_posts`: `LIMIT page_size OFFSET
(page - 1) * page_size` over the descending order.  (`page` and
`page_size` are `u32` widened to `i64`; with the handler-enforced
`page_size ≤ 100` the `i64` products cannot overflow, so plain `Nat`
arithmetic is used.) -/
def repo_list_posts (s : PostStore) (pg : Pagination) :
    Except DomainError (List Post) :=
  let off := (pg.page - 1) * pg.page_size
  collectRows (((sortPostsDesc s.posts).drop off).take pg.page_size)

/-- `PostgresPostRepository::total_posts` (`SELECT COUNT(*)`). -/
def total_posts (s : PostStore) : Int := s.posts.length

/-! ## Blog service (`src/blog-server/src/application/blog_service.rs`) -/

structure ListPostsResult where
  posts : List Post
  page : Nat
  page_size : Nat
  total : Int
deriving DecidableEq

/-- `BlogService::create_post`. -/
def create_post (s : PostStore) (next_post_id author_id : Int)
    (req : CreatePostRequest) : Except DomainError Post × PostStore :=
  match req.validate with
  | .error e => (.error e, s)
  | .ok req =>
    let row : Post :=
      ⟨next_post_id, req.title, req.content, author_id, s.now, s.now⟩
    match map_row_to_post row with
    | .error e => (.error e, { s with posts := s.posts ++ [row] })
    | .ok p => (.ok p, { s with posts := s.posts ++ [row] })

/-- `BlogService::get_post`: a missing row becomes `NotFound`. -/
def get_post (s : PostStore) (id : Int) : Except DomainError Post := do
  match ← repo_get_post s id with
  | some p => .ok p
  | none => .error (.NotFound ("post id: " ++ toString id))

/-- `BlogService::update_post`: validate, then the single conditional
`update_post_owned`; a `None` result — covering both a missing post and a
non-owner actor — is mapped to `NotFound`. -/
def update_post (s : PostStore) (actor_user_id post_id : Int)
    (req : UpdatePostRequest) : Except DomainError Post × PostStore :=
  match req.validate with
  | .error e => (.error e, s)
  | .ok req =>
    match update_post_owned s post_id actor_user_id ⟨req.title, req.content⟩ with
    | (.error e, s) => (.error e, s)
    | (.ok none, s) =>
      (.error (.NotFound ("post id: " ++ toString post_id)), s)
    | (.ok (some p), s) => (.ok p, s)

/-- `BlogService::delete_post`: fetch first (`NotFound` when absent),
check ownership (`Forbidden`), then issue the repository delete, mapping a
zero-row delete back to `NotFound`.  The fetch reads `s_fetch` and the
delete runs against `s_del`; a concurrent delete between the two
repository calls is represented by `s_fetch ≠ s_del`, and the sequential
execution by `s_fetch = s_del`. -/
def delete_post (s_fetch s_del : PostStore) (actor_user_id post_id : Int) :
    Except DomainError Unit × PostStore :=
  match repo_get_post s_fetch post_id with
  | .error e => (.error e, s_del)
  | .ok none => (.error (.NotFound ("post id: " ++ toString post_id)), s_del)
  | .ok (some original_post) =>
    if original_post.author_id ≠ actor_user_id then
      (.error .Forbidden, s_del)
    else
      match repo_delete_post s_del post_id with
      | (deleted, s2) =>
        if ¬ deleted then
          (.error (.NotFound ("post id: " ++ toString post_id)), s2)
        else
          (.ok (), s2)

/-- `BlogService::list_posts`: queries the page and the separate total
count, and passes `page`/`page_size` through unchanged. -/
def list_posts (s : PostStore) (page page_size : Nat) :
    Except DomainError ListPostsResult := do
  let posts ← repo_list_posts s ⟨page, page_size⟩
  .ok ⟨posts, page, page_size, total_posts s⟩

/-! ## REST transport (`src/blog-server/src/presentation/http/handlers/posts.rs`) -/

/-- `2^32`; `u32` arithmetic wraps modulo this. -/
def U32_MOD : Nat := 4294967296

/-- `u32::saturating_sub` (`Nat` subtraction already saturates at 0). -/
def satSub32 (a b : Nat) : Nat := a - b

/-- `u32::saturating_mul`. -/
def satMul32 (a b : Nat) : Nat := min (a * b) (U32_MOD - 1)

/-- `PaginationQuery` from `handlers/posts.rs`: `limit` and `offset` are
`Option<u32>` query parameters. -/
structure PaginationQuery where
  limit : Option Nat
  offset : Option Nat
deriving DecidableEq

/-- The `#[validate(range(min = 1, max = 100))]` rule on
`PaginationQuery::limit` (an absent limit passes). -/
def PaginationQuery.validateQ (q : PaginationQuery) : Bool :=
  match q.limit with
  | some l => 1 ≤ l && l ≤ 100
  | none => true

/-- `query.limit.unwrap_or(20)` in the REST `list_posts` handler. -/
def rest_effective_limit (q : PaginationQuery) : Nat := q.limit.getD 20

/-- The limit/offset → page/page_size translation of the REST `list_posts`
handler: validate, default, then `page = (offset / limit) + 1` in `u32`
arithmetic (hence the explicit wrap; a debug build traps instead on the
single wrapping input).  `none` is the handler's 400 response. -/
def rest_list_translate (q : PaginationQuery) : Option (Nat × Nat) :=
  if q.validateQ then
    let limit := rest_effective_limit q
    let offset := q.offset.getD 0
    some (((offset / limit) + 1) % U32_MOD, limit)
  else
    none

structure PostDto where
  id : Int
  title : String
  content : String
  author_id : Int
  created_at : Int
  updated_at : Int
deriving DecidableEq

/-- `impl From<Post> for PostDto`. -/
def PostDto.ofPost (p : Post) : PostDto :=
  ⟨p.id, p.title, p.content, p.author_id, p.created_at, p.updated_at⟩

structure ListPostsResponseDto where
  posts : List PostDto
  limit : Nat
  offset : Nat
  total : Int
deriving DecidableEq

/-- `impl From<ListPostsResult> for ListPostsResponseDto`: the echoed
offset is recomputed as `page.saturating_sub(1).saturating_mul(page_size)`
rather than echoing the client's offset. -/
def ListPostsResponseDto.ofResult (r : ListPostsResult) : ListPostsResponseDto :=
  ⟨r.posts.map PostDto.ofPost, r.page_size,
   satMul32 (satSub32 r.page 1) r.page_size, r.total⟩

/-- The full REST `list_posts` handler over a post store: translate the
query, call the service, render the DTO.  `none` covers the handler's
error responses (validation failure or a mapped domain error), which no
claim inspects further. -/
def rest_list_posts (s : PostStore) (q : PaginationQuery) :
    Option ListPostsResponseDto :=
  match rest_list_translate q with
  | none => none
  | some (page, page_size) =>
    match list_posts s page page_size with
    | .error _ => none
    | .ok r => some (ListPostsResponseDto.ofResult r)

/-! ## RPC transport (`src/blog-server/src/presentation/grpc/service.rs`,
`src/blog-server/src/presentation/grpc/status.rs`) -/

/-- `if input.limit == 0 { DEFAULT_LIMIT } else { input.limit }` in the
gRPC `list_posts` method (`DEFAULT_LIMIT = 20`). -/
def grpc_effective_limit (limit : Nat) : Nat := if limit == 0 then 20 else limit

/-- The gRPC `list_posts` translation: default a zero limit, reject limits
above `MAX_LIMIT = 100`, then the same `u32` `page = (offset / limit) + 1`. -/
def grpc_list_translate (limit offset : Nat) : Except String (Nat × Nat) :=
  let limit := grpc_effective_limit limit
  if limit > 100 then
    .error "limit must be in 1..=100"
  else
    .ok (((offset / limit) + 1) % U32_MOD, limit)

/-- The gRPC status codes used by `status.rs`. -/
inductive GrpcCode where
  | invalidArgument
  | alreadyExists
  | unauthenticated
  | notFoundCode
  | permissionDenied
  | internal
deriving DecidableEq

/-- `map_domain_error` from `grpc/status.rs`: each `DomainError` kind to a
`tonic::Status` (code and message); `Unexpected` always renders
`Status::internal("internal error")`. -/
def grpc_map_domain_error (err : DomainError) : GrpcCode × String :=
  match err with
  | .Validation _ _ => (.invalidArgument, err.message)
  | .AlreadyExists _ => (.alreadyExists, err.message)
  | .InvalidCredentials => (.unauthenticated, err.message)
  | .NotFound _ => (.notFoundCode, err.message)
  | .Forbidden => (.permissionDenied, err.message)
  | .Unexpected _ => (.internal, "internal error")

/-! ## REST error rendering (`src/blog-server/src/presentation/http/app_error.rs`) -/

/-- The `AppError::Domain` arm of `impl IntoResponse for AppError`: the
HTTP status code and the body's single `error` message. -/
def http_domain_response (err : DomainError) : Nat × String :=
  match err with
  | .Validation _ _ => (400, err.message)
  | .AlreadyExists _ => (409, err.message)
  | .InvalidCredentials => (401, err.message)
  | .NotFound _ => (404, err.message)
  | .Forbidden => (403, err.message)
  | .Unexpected _ => (500, "internal error")


/-! ## String lemmas -/

theorem head?_dropWhile_not (p : α → Bool) (l : List α) (x : α)
    (h : (l.dropWhile p).head? = some x) : p x = false := by
  induction l with
  | nil => simp [List.dropWhile] at h
  | cons a l ih =>
    rw [List.dropWhile] at h
    by_cases hp : p a
    · simp [hp] at h; exact ih h
    · simp [hp] at h; simp [← h]; simpa using hp

theorem dropWhile_eq_self (p : α → Bool) (l : List α)
    (h : ∀ x, l.head? = some x → p x = false) : l.dropWhile p = l := by
  cases l with
  | nil => rfl
  | cons a l => rw [List.dropWhile]; simp [h a rfl]

theorem getLast?_dropWhile_not (p : α → Bool) (l : List α) (x : α)
    (h : (l.dropWhile p).getLast? = some x) : (l.getLast? = some x) := by
  obtain ⟨pre, hpre⟩ := List.dropWhile_suffix (l := l) p
  rw [← hpre, List.getLast?_append, h]
  rfl

theorem trimChars_head (l : List Char) (x : Char)
    (h : (trimChars l).head? = some x) : rustIsWs x = false := by
  unfold trimChars at h
  rw [List.head?_reverse] at h
  have h2 := getLast?_dropWhile_not _ _ _ h
  rw [List.getLast?_reverse] at h2
  exact head?_dropWhile_not _ _ _ h2

theorem trimChars_last (l : List Char) (x : Char)
    (h : (trimChars l).getLast? = some x) : rustIsWs x = false := by
  unfold trimChars at h
  rw [List.getLast?_reverse] at h
  exact head?_dropWhile_not _ _ _ h

theorem trimChars_trimChars (l : List Char) :
    trimChars (trimChars l) = trimChars l := by
  have h1 : (trimChars l).dropWhile rustIsWs = trimChars l :=
    dropWhile_eq_self _ _ (fun x hx => trimChars_head l x hx)
  have h2 : (trimChars l).reverse.dropWhile rustIsWs = (trimChars l).reverse :=
    dropWhile_eq_self _ _ (fun x hx => by
      rw [List.head?_reverse] at hx
      exact trimChars_last l x hx)
  show ((((trimChars l).dropWhile rustIsWs).reverse.dropWhile rustIsWs)).reverse = trimChars l
  rw [h1, h2, List.reverse_reverse]

theorem toNat_ofNat_valid (n : Nat) (hv : n.isValidChar) :
    (Char.ofNat n).toNat = n := by
  unfold Char.ofNat Char.ofNatAux
  simp [hv]
  rfl

theorem lowerChar_toNat (c : Char) (h : 65 ≤ c.toNat ∧ c.toNat ≤ 90) :
    (lowerChar c).toNat = c.toNat + 32 := by
  unfold lowerChar
  rw [if_pos h]
  exact toNat_ofNat_valid _ (Or.inl (by omega))

theorem lowerChar_eq_self (c : Char) (h : ¬ (65 ≤ c.toNat ∧ c.toNat ≤ 90)) :
    lowerChar c = c := by
  unfold lowerChar; rw [if_neg h]

theorem lowerChar_lowerChar (c : Char) :
    lowerChar (lowerChar c) = lowerChar c := by
  by_cases h : 65 ≤ c.toNat ∧ c.toNat ≤ 90
  · have ht := lowerChar_toNat c h
    exact lowerChar_eq_self _ (by omega)
  · rw [lowerChar_eq_self c h, lowerChar_eq_self c h]

theorem char_eq_iff_toNat (c m : Char) : (c = m) = (c.toNat = m.toNat) := by
  apply propext
  constructor
  · intro h; rw [h]
  · intro h
    apply Char.ext
    unfold Char.toNat at h
    exact UInt32.ext h

theorem isWs_true_iff (c : Char) :
    rustIsWs c = true ↔ (c.toNat = 32 ∨ c.toNat = 9 ∨ c.toNat = 13 ∨ c.toNat = 10) := by
  have e32 : (Char.ofNat 32).toNat = 32 := toNat_ofNat_valid 32 (Or.inl (by norm_num))
  have e9 : (Char.ofNat 9).toNat = 9 := toNat_ofNat_valid 9 (Or.inl (by norm_num))
  have e13 : (Char.ofNat 13).toNat = 13 := toNat_ofNat_valid 13 (Or.inl (by norm_num))
  have e10 : (Char.ofNat 10).toNat = 10 := toNat_ofNat_valid 10 (Or.inl (by norm_num))
  unfold rustIsWs Char.isWhitespace
  simp only [Bool.or_eq_true, decide_eq_true_eq]
  rw [show (c = Char.ofNat 32) = (c.toNat = (Char.ofNat 32).toNat) from char_eq_iff_toNat c _,
      show (c = Char.ofNat 9) = (c.toNat = (Char.ofNat 9).toNat) from char_eq_iff_toNat c _,
      show (c = Char.ofNat 13) = (c.toNat = (Char.ofNat 13).toNat) from char_eq_iff_toNat c _,
      show (c = Char.ofNat 10) = (c.toNat = (Char.ofNat 10).toNat) from char_eq_iff_toNat c _,
      e32, e9, e13, e10]
  tauto

theorem isWs_false_of (c : Char)
    (h : ¬ (c.toNat = 32 ∨ c.toNat = 9 ∨ c.toNat = 13 ∨ c.toNat = 10)) :
    rustIsWs c = false := by
  cases hb : rustIsWs c with
  | false => rfl
  | true => exact absurd ((isWs_true_iff c).mp hb) h

theorem isWs_lowerChar (c : Char) : rustIsWs (lowerChar c) = rustIsWs c := by
  by_cases h : 65 ≤ c.toNat ∧ c.toNat ≤ 90
  · have ht := lowerChar_toNat c h
    rw [isWs_false_of (lowerChar c) (by omega), isWs_false_of c (by omega)]
  · rw [lowerChar_eq_self c h]

theorem trimChars_map_lower (l : List Char) :
    trimChars (l.map lowerChar) = (trimChars l).map lowerChar := by
  have hws : (rustIsWs ∘ lowerChar) = rustIsWs := funext isWs_lowerChar
  unfold trimChars
  rw [List.dropWhile_map, hws, ← List.map_reverse, List.dropWhile_map, hws,
      ← List.map_reverse]

theorem map_lower_idem (l : List Char) :
    (l.map lowerChar).map lowerChar = l.map lowerChar := by
  rw [List.map_map, show (lowerChar ∘ lowerChar) = lowerChar from funext lowerChar_lowerChar]

theorem rustTrim_rustTrim (s : String) : rustTrim (rustTrim s) = rustTrim s := by
  unfold rustTrim
  rw [trimChars_trimChars]

theorem rustTrim_lower_trim (s : String) :
    rustTrim (rustToLower (rustTrim s)) = rustToLower (rustTrim s) := by
  unfold rustTrim rustToLower
  simp only
  rw [trimChars_map_lower, trimChars_trimChars]

theorem rustToLower_idem (s : String) :
    rustToLower (rustToLower s) = rustToLower s := by
  unfold rustToLower
  simp only
  rw [map_lower_idem]

theorem splitChar_ne_nil (sep : Char) (l : List Char) : splitChar sep l ≠ [] := by
  cases l with
  | nil => simp [splitChar]
  | cons c cs =>
    unfold splitChar
    by_cases h : c = sep
    · simp [h]
    · simp only [h, if_false]
      cases splitChar sep cs <;> simp

theorem splitChar_not_mem (sep : Char) (a : List Char) (h : sep ∉ a) :
    splitChar sep a = [a] := by
  induction a with
  | nil => rfl
  | cons c cs ih =>
    have hc : ¬ c = sep := by intro hh; exact h (hh ▸ List.mem_cons_self c cs)
    have hcs : sep ∉ cs := fun hm => h (List.mem_cons_of_mem c hm)
    unfold splitChar
    simp only [hc, if_false]
    rw [ih hcs]

theorem splitChar_append (sep : Char) (a b : List Char) (h : sep ∉ a) :
    splitChar sep (a ++ sep :: b) = a :: splitChar sep b := by
  induction a with
  | nil => simp [splitChar]
  | cons c cs ih =>
    have hc : ¬ c = sep := by intro hh; exact h (hh ▸ List.mem_cons_self c cs)
    have hcs : sep ∉ cs := fun hm => h (List.mem_cons_of_mem c hm)
    show splitChar sep (c :: (cs ++ sep :: b)) = (c :: cs) :: splitChar sep b
    rw [splitChar, if_neg hc, ih hcs]


/-! ## Hash-string lemmas -/

theorem data_append (s t : String) : (s ++ t).data = s.data ++ t.data := rfl

theorem mk_data (s : String) : String.mk s.data = s := rfl

theorem mk_nil : String.mk [] = "" := rfl

/-- `splitChar` applied to the exact shape of an encoded PHC string. -/
theorem splitChar_hash (A V P S D : List Char) (hA : dollar ∉ A)
    (hV : dollar ∉ V) (hP : dollar ∉ P) (hS : dollar ∉ S) (hD : dollar ∉ D) :
    splitChar dollar
      (dollar :: (A ++ dollar :: (V ++ dollar :: (P ++ dollar ::
        (S ++ dollar :: D))))) = [[], A, V, P, S, D] := by
  rw [show splitChar dollar (dollar :: (A ++ dollar :: (V ++ dollar :: (P ++
        dollar :: (S ++ dollar :: D))))) =
      [] :: splitChar dollar (A ++ dollar :: (V ++ dollar :: (P ++ dollar ::
        (S ++ dollar :: D)))) from by rw [splitChar, if_pos rfl]]
  rw [splitChar_append _ _ _ hA, splitChar_append _ _ _ hV,
      splitChar_append _ _ _ hP, splitChar_append _ _ _ hS,
      splitChar_not_mem _ _ hD]

/-- The PHC encoding produced by `hash_password` parses back to its salt
and digest, provided neither contains the dollar separator. -/
theorem parse_hash_encode (phf : String → String → String) (salt pw : String)
    (hs : dollar ∉ salt.data) (hd : dollar ∉ (phf salt pw).data) :
    parse_hash (hash_password phf salt pw) = some (salt, phf salt pw) := by
  have hA : dollar ∉ "argon2id".data := by decide
  have hV : dollar ∉ "v=19".data := by decide
  have hP : dollar ∉ argonParams.data := by decide
  have hdata : (hash_password phf salt pw).data =
      dollar :: ("argon2id".data ++ dollar :: ("v=19".data ++ dollar ::
        (argonParams.data ++ dollar :: (salt.data ++ dollar ::
          (phf salt pw).data)))) := by
    unfold hash_password
    simp [data_append, List.append_assoc]
  unfold parse_hash
  rw [hdata, splitChar_hash _ _ _ _ _ hA hV hP hs hd]
  simp only [List.map, mk_data, mk_nil]
  simp


/-! ## Validator equations -/

/-- `RegisterRequest.validate` written out as nested conditionals. -/
theorem register_validate_eq (ev : String → Bool) (req : RegisterRequest) :
    RegisterRequest.validate ev req =
      if byteLen (rustTrim req.username) < 3 ∨ byteLen (rustTrim req.username) > 64 then
        .error (.Validation "username" "must be 3..64 chars")
      else if ¬ ev (rustToLower (rustTrim req.email)) then
        .error (.Validation "email" "must be a valid email")
      else if req.password.length < 8 ∨ req.password.length > 128 then
        .error (.Validation "password" "must be 8..128 chars")
      else
        .ok ⟨rustTrim req.username, rustToLower (rustTrim req.email), req.password⟩ := by
  by_cases h1 : byteLen (rustTrim req.username) < 3 ∨ byteLen (rustTrim req.username) > 64
  · simp [RegisterRequest.validate, normalize_register_username, h1, Bind.bind, Except.bind]
  · by_cases h2 : ev (rustToLower (rustTrim req.email))
    · by_cases h3 : req.password.length < 8 ∨ req.password.length > 128
      · simp [RegisterRequest.validate, normalize_register_username, normalize_email,
              h1, h2, h3, Bind.bind, Except.bind]
      · simp [RegisterRequest.validate, normalize_register_username, normalize_email,
              h1, h2, h3, Bind.bind, Except.bind]
    · simp [RegisterRequest.validate, normalize_register_username, normalize_email,
            h1, h2, Bind.bind, Except.bind]

/-- `User.new` written out as nested conditionals. -/
theorem user_new_eq (ev : String → Bool) (id : Int) (u e : String) (ca : Int) :
    User.new ev id u e ca =
      if id ≤ 0 then
        .error (.Validation "id" "must be > 0")
      else if byteLen (rustTrim u) < 3 ∨ byteLen (rustTrim u) > 64 then
        .error (.Validation "username" "must be 3..64 chars")
      else if ¬ ev (rustToLower (rustTrim e)) then
        .error (.Validation "email" "must be a valid email")
      else
        .ok ⟨id, rustTrim u, rustToLower (rustTrim e), ca⟩ := by
  by_cases h0 : id ≤ 0
  · simp [User.new, h0, Bind.bind, Except.bind]
  · by_cases h1 : byteLen (rustTrim u) < 3 ∨ byteLen (rustTrim u) > 64
    · simp [User.new, normalize_register_username, h0, h1, Bind.bind, Except.bind]
    · by_cases h2 : ev (rustToLower (rustTrim e))
      · simp [User.new, normalize_register_username, normalize_email, h0, h1, h2,
              Bind.bind, Except.bind]
      · simp [User.new, normalize_register_username, normalize_email, h0, h1, h2,
              Bind.bind, Except.bind]

/-- `Post.new` written out as nested conditionals. -/
theorem post_new_eq (id : Int) (t c : String) (a ca ua : Int) :
    Post.new id t c a ca ua =
      if id ≤ 0 then
        .error (.Validation "id" "must be > 0")
      else if a ≤ 0 then
        .error (.Validation "author_id" "must be > 0")
      else if byteLen (rustTrim t) = 0 ∨ byteLen (rustTrim t) > 255 then
        .error (.Validation "title" "must be 1..255 chars")
      else if byteLen (rustTrim c) = 0 then
        .error (.Validation "content" "must not be empty")
      else if ua < ca then
        .error (.Validation "updated_at" "must be >= created_at")
      else
        .ok ⟨id, rustTrim t, rustTrim c, a, ca, ua⟩ := by
  by_cases h0 : id ≤ 0
  · simp [Post.new, validate_positive_i64, h0, Bind.bind, Except.bind]
  · by_cases h1 : a ≤ 0
    · simp [Post.new, validate_positive_i64, h0, h1, Bind.bind, Except.bind]
    · by_cases h2 : byteLen (rustTrim t) = 0 ∨ byteLen (rustTrim t) > 255
      · simp [Post.new, validate_positive_i64, normalize_title, h0, h1, h2,
              Bind.bind, Except.bind]
      · by_cases h3 : byteLen (rustTrim c) = 0
        · simp [Post.new, validate_positive_i64, normalize_title, normalize_content,
                h0, h1, h2, h3, Bind.bind, Except.bind]
        · by_cases h4 : ua < ca
          · simp [Post.new, validate_positive_i64, normalize_title, normalize_content,
                  h0, h1, h2, h3, h4, Bind.bind, Except.bind]
          · simp [Post.new, validate_positive_i64, normalize_title, normalize_content,
                  h0, h1, h2, h3, h4, Bind.bind, Except.bind]

/-- `UpdatePostRequest.validate` written out as nested conditionals. -/
theorem update_validate_eq (req : UpdatePostRequest) :
    UpdatePostRequest.validate req =
      if byteLen (rustTrim req.title) = 0 ∨ byteLen (rustTrim req.title) > 255 then
        .error (.Validation "title" "must be 1..255 chars")
      else if byteLen (rustTrim req.content) = 0 then
        .error (.Validation "content" "must not be empty")
      else
        .ok ⟨rustTrim req.title, rustTrim req.content⟩ := by
  by_cases h1 : byteLen (rustTrim req.title) = 0 ∨ byteLen (rustTrim req.title) > 255
  · simp [UpdatePostRequest.validate, normalize_title, h1, Bind.bind, Except.bind]
  · by_cases h2 : byteLen (rustTrim req.content) = 0
    · simp [UpdatePostRequest.validate, normalize_title, normalize_content, h1, h2,
            Bind.bind, Except.bind]
    · simp [UpdatePostRequest.validate, normalize_title, normalize_content, h1, h2,
            Bind.bind, Except.bind]


/-! ## Store well-formedness and list lemmas -/

/-- A stored post row that round-trips through `Post::new` unchanged (the
re-validation every repository read performs). -/
def Post.WFrow (p : Post) : Prop :=
  Post.new p.id p.title p.content p.author_id p.created_at p.updated_at = .ok p

instance : DecidablePred Post.WFrow := fun p => by
  unfold Post.WFrow; infer_instance

/-- Well-formed `posts` table: every row re-validates, and ids are keys. -/
def PostStore.WF (s : PostStore) : Prop :=
  (∀ p ∈ s.posts, Post.WFrow p) ∧
    ∀ p ∈ s.posts, ∀ q ∈ s.posts, p.id = q.id → p = q

instance : DecidablePred PostStore.WF := fun s => by
  unfold PostStore.WF; infer_instance

theorem wfrow_map_row (p : Post) (h : Post.WFrow p) :
    map_row_to_post p = .ok p := by
  unfold map_row_to_post
  rw [h]

theorem wfrow_facts (p : Post) (h : Post.WFrow p) :
    0 < p.id ∧ 0 < p.author_id ∧ rustTrim p.title = p.title ∧
      rustTrim p.content = p.content ∧ p.created_at ≤ p.updated_at := by
  unfold Post.WFrow at h
  rw [post_new_eq] at h
  by_cases h0 : p.id ≤ 0
  · rw [if_pos h0] at h; exact absurd h (by simp)
  · rw [if_neg h0] at h
    by_cases h1 : p.author_id ≤ 0
    · rw [if_pos h1] at h; exact absurd h (by simp)
    · rw [if_neg h1] at h
      by_cases h2 : byteLen (rustTrim p.title) = 0 ∨ byteLen (rustTrim p.title) > 255
      · rw [if_pos h2] at h; exact absurd h (by simp)
      · rw [if_neg h2] at h
        by_cases h3 : byteLen (rustTrim p.content) = 0
        · rw [if_pos h3] at h; exact absurd h (by simp)
        · rw [if_neg h3] at h
          by_cases h4 : p.updated_at < p.created_at
          · rw [if_pos h4] at h; exact absurd h (by simp)
          · rw [if_neg h4] at h
            have hp : p = ⟨p.id, rustTrim p.title, rustTrim p.content,
                p.author_id, p.created_at, p.updated_at⟩ := by
              have := h
              injection this with hh
              exact hh.symm
            constructor
            · omega
            constructor
            · omega
            refine ⟨?_, ?_, by omega⟩
            · conv_rhs => rw [hp]
            · conv_rhs => rw [hp]

/-- `find?` with a stronger predicate still returns the same first match
when that match satisfies the stronger predicate. -/
theorem find?_mono {α : Type} (w s : α → Bool) (l : List α) (x : α)
    (hw : l.find? w = some x) (hs : s x = true)
    (himp : ∀ y, s y = true → w y = true) : l.find? s = some x := by
  induction l with
  | nil => simp at hw
  | cons a t ih =>
    by_cases hwa : w a
    · rw [List.find?_cons_of_pos _ hwa] at hw
      injection hw with hx
      subst hx
      rw [List.find?_cons_of_pos _ hs]
    · rw [List.find?_cons_of_neg _ hwa] at hw
      have hsa : ¬ s a = true := fun hh => hwa (himp a hh)
      rw [List.find?_cons_of_neg _ (by simpa using hsa)]
      exact ih hw


/-- In a table with unique ids, once the id-match is some `p` and `p` has a
different author, the conditional-ownership lookup finds nothing. -/
theorem find_owned_none (l : List Post) (pid owner : Int) (p : Post)
    (huniq : ∀ a ∈ l, ∀ b ∈ l, a.id = b.id → a = b)
    (hf : l.find? (fun q => q.id == pid) = some p)
    (hauthor : p.author_id ≠ owner) :
    l.find? (fun q => q.id == pid && q.author_id == owner) = none := by
  rw [List.find?_eq_none]
  intro y hy
  have hp : p ∈ l := List.mem_of_find?_eq_some hf
  have hpid : p.id = pid := by simpa using List.find?_some hf
  by_cases hid : y.id = pid
  · have : y = p := huniq y hy p hp (by rw [hid, hpid])
    subst this
    simp [hauthor]
  · simp [hid]

/-- When the id-match is some `p` and `p` is owned by `owner`, the
conditional-ownership lookup finds the same row. -/
theorem find_owned_some (l : List Post) (pid owner : Int) (p : Post)
    (hf : l.find? (fun q => q.id == pid) = some p)
    (hauthor : p.author_id = owner) :
    l.find? (fun q => q.id == pid && q.author_id == owner) = some p := by
  apply find?_mono _ _ _ _ hf
  · have hpid : p.id = pid := by simpa using List.find?_some hf
    simp [hpid, hauthor]
  · intro y hy
    simp at hy
    simp [hy.1]

/-- A generated token is never the empty string. -/
theorem generate_token_ne_empty (jwt : JwtService) (now user_id : Int)
    (username : String) : generate_token jwt now user_id username ≠ "" := by
  intro h
  have hd := congrArg String.data h
  simp [generate_token, data_append] at hd

/-- The fixed dummy hash parses (it is a well-formed PHC string with the
service parameters). -/
theorem parse_hash_dummy :
    parse_hash DUMMY_PASSWORD_HASH =
      some ("MDEyMzQ1Njc4OWFiY2RlZg",
            "gwN6hT1sNdk9kI95f7n2Gl3fL0qRmBf2Ffkj2r90/0M") := by
  decide


/-! ## Claim theorems -/

/-- C5: Each transport adapter maps every domain error kind to its
transport-native status per the table — Validation to
bad-request/invalid-argument, AlreadyExists to conflict/already-exists,
InvalidCredentials to unauthorized/unauthenticated, NotFound to
not-found, Forbidden to forbidden/permission-denied — and for every
Unexpected error the rendered response carries only the fixed generic
internal-error message, never the internal detail string. -/
theorem C5_error_mapping_table :
    (∀ f m, (http_domain_response (.Validation f m)).1 = 400 ∧
            (grpc_map_domain_error (.Validation f m)).1 = .invalidArgument) ∧
    (∀ r, (http_domain_response (.AlreadyExists r)).1 = 409 ∧
          (grpc_map_domain_error (.AlreadyExists r)).1 = .alreadyExists) ∧
    ((http_domain_response .InvalidCredentials).1 = 401 ∧
     (grpc_map_domain_error .InvalidCredentials).1 = .unauthenticated) ∧
    (∀ r, (http_domain_response (.NotFound r)).1 = 404 ∧
          (grpc_map_domain_error (.NotFound r)).1 = .notFoundCode) ∧
    ((http_domain_response .Forbidden).1 = 403 ∧
     (grpc_map_domain_error .Forbidden).1 = .permissionDenied) ∧
    (∀ d, http_domain_response (.Unexpected d) = (500, "internal error") ∧
          grpc_map_domain_error (.Unexpected d) = (.internal, "internal error")) :=
  ⟨fun _ _ => ⟨rfl, rfl⟩, fun _ => ⟨rfl, rfl⟩, ⟨rfl, rfl⟩, fun _ => ⟨rfl, rfl⟩,
   ⟨rfl, rfl⟩, fun _ => ⟨rfl, rfl⟩⟩

/-- C9: In both list handlers the division `offset / limit` is never a
division by zero: the REST handler validates `limit` into `1..=100`
(defaulting a missing limit to 20) before dividing, and the RPC handler
replaces a zero limit with the default 20 before dividing, so the divisor
is at least 1 on every path that reaches the division. -/
theorem C9_list_divisor_positive :
    (∀ q : PaginationQuery, q.validateQ = true → 1 ≤ rest_effective_limit q) ∧
    (∀ limit : Nat, 1 ≤ grpc_effective_limit limit) := by
  constructor
  · intro q hq
    unfold PaginationQuery.validateQ at hq
    unfold rest_effective_limit
    cases hl : q.limit with
    | none => simp
    | some l =>
      rw [hl] at hq
      simp only [Bool.and_eq_true, decide_eq_true_eq] at hq
      simpa using hq.1
  · intro limit
    unfold grpc_effective_limit
    by_cases h : limit = 0
    · simp [h]
    · simp [h]
      omega

/-- Witness for C9 at concrete inputs: the defaulted REST limit for an
absent query parameter, and the defaulted RPC limit for a zero limit. -/
theorem C9_list_divisor_positive_witness :
    1 ≤ rest_effective_limit ⟨none, none⟩ ∧ 1 ≤ grpc_effective_limit 0 :=
  ⟨C9_list_divisor_positive.1 ⟨none, none⟩ (by decide),
   C9_list_divisor_positive.2 0⟩

/-- C3 (amended): for every limit/offset accepted by a list endpoint such
that the page computation does not exceed `u32` (`offset/page_size + 1 <
2^32` — excluded only at `limit = 1, offset = u32::MAX`, where the `u32`
addition wraps), the translation is `page_size = max(limit, 1)` and
`page = offset / page_size + 1`; in particular limit=20, offset=40 yields
page=3, page_size=20; limit=20, offset=0 yields page=1, page_size=20; and
limit=10, offset=15 yields page=2. -/
theorem C3_pagination_translation :
    (∀ q page psize, rest_list_translate q = some (page, psize) →
      (q.offset.getD 0) / rest_effective_limit q + 1 < U32_MOD →
      psize = max (rest_effective_limit q) 1 ∧
      page = (q.offset.getD 0) / psize + 1) ∧
    (∀ limit offset page psize,
      grpc_list_translate limit offset = .ok (page, psize) →
      offset / grpc_effective_limit limit + 1 < U32_MOD →
      psize = max (grpc_effective_limit limit) 1 ∧
      page = offset / psize + 1) ∧
    rest_list_translate ⟨some 20, some 40⟩ = some (3, 20) ∧
    rest_list_translate ⟨some 20, some 0⟩ = some (1, 20) ∧
    rest_list_translate ⟨some 10, some 15⟩ = some (2, 10) ∧
    grpc_list_translate 20 40 = .ok (3, 20) ∧
    grpc_list_translate 20 0 = .ok (1, 20) ∧
    grpc_list_translate 10 15 = .ok (2, 10) := by
  refine ⟨?_, ?_, by decide, by decide, by decide, by decide, by decide, by decide⟩
  · intro q page psize h hlt
    unfold rest_list_translate at h
    by_cases hv : q.validateQ
    · rw [if_pos hv] at h
      have h1 : 1 ≤ rest_effective_limit q := C9_list_divisor_positive.1 q hv
      injection h with h
      injection h with hpage hsize
      subst hsize
      constructor
      · omega
      · rw [← hpage, Nat.mod_eq_of_lt hlt]
    · rw [if_neg hv] at h
      exact absurd h (by simp)
  · intro limit offset page psize h hlt
    unfold grpc_list_translate at h
    have h1 : 1 ≤ grpc_effective_limit limit := C9_list_divisor_positive.2 limit
    by_cases hm : grpc_effective_limit limit > 100
    · rw [if_pos hm] at h
      exact absurd h (by simp)
    · rw [if_neg hm] at h
      injection h with h
      injection h with hpage hsize
      subst hsize
      constructor
      · omega
      · rw [← hpage, Nat.mod_eq_of_lt hlt]

/-- Witness for C3 at limit=20, offset=40 on both endpoints. -/
theorem C3_pagination_translation_witness :
    (20 = max (rest_effective_limit ⟨some 20, some 40⟩) 1 ∧
      (3 : Nat) = ((⟨some 20, some 40⟩ : PaginationQuery).offset.getD 0) / 20 + 1) ∧
    (20 = max (grpc_effective_limit 20) 1 ∧ (3 : Nat) = 40 / 20 + 1) :=
  ⟨C3_pagination_translation.1 ⟨some 20, some 40⟩ 3 20 (by decide) (by decide),
   C3_pagination_translation.2.1 20 40 3 20 (by decide) (by decide)⟩

/-- Counterexample to C3 as stated: at the accepted input limit=1,
offset=4294967295 (`u32::MAX`) the REST handler's `u32` page computation
wraps to page 0, whereas the claimed formula gives
`floor(offset / page_size) + 1 = 4294967296`. -/
theorem C3_pagination_translation_counterexample :
    rest_list_translate ⟨some 1, some 4294967295⟩ = some (0, 1) ∧
    (0 : Nat) ≠ 4294967295 / 1 + 1 := by
  constructor
  · decide
  · decide


/-- C10 (amended): the REST list response echoes back an offset recomputed
as `(page - 1) * page_size` rather than the client's offset; for every
request with in-range `u32` offset whose page computation does not wrap
(excluded only at `limit = 1, offset = u32::MAX`), the echoed offset is
the requested offset rounded down to a multiple of the effective limit
(so limit=10, offset=15 echoes offset=10), and when the offset is an
exact multiple of the limit the echoed offset equals the requested one. -/
theorem C10_offset_echo :
    ∀ s q dto, rest_list_posts s q = some dto →
      q.offset.getD 0 < U32_MOD →
      (q.offset.getD 0) / rest_effective_limit q + 1 < U32_MOD →
      dto.offset =
          ((q.offset.getD 0) / rest_effective_limit q) * rest_effective_limit q ∧
        ((q.offset.getD 0) % rest_effective_limit q = 0 →
          dto.offset = q.offset.getD 0) := by
  intro s q dto h hrange hlt
  unfold rest_list_posts at h
  cases ht : rest_list_translate q with
  | none => rw [ht] at h; exact absurd h (by simp)
  | some pr =>
    obtain ⟨page, psize⟩ := pr
    rw [ht] at h
    simp only [] at h
    cases hl : list_posts s page psize with
    | error e => rw [hl] at h; exact absurd h (by simp)
    | ok r =>
      rw [hl] at h
      simp only [] at h
      injection h with h
      subst h
      have hr : r.page = page ∧ r.page_size = psize := by
        unfold list_posts at hl
        cases hrepo : repo_list_posts s ⟨page, psize⟩ with
        | error e =>
          rw [hrepo] at hl
          exact absurd hl (by simp [Bind.bind, Except.bind])
        | ok posts =>
          rw [hrepo] at hl
          simp only [Bind.bind, Except.bind] at hl
          injection hl with hl
          rw [← hl]
          exact ⟨rfl, rfl⟩
      have htr : page = ((q.offset.getD 0) / rest_effective_limit q + 1) % U32_MOD ∧
          psize = rest_effective_limit q := by
        unfold rest_list_translate at ht
        by_cases hv : q.validateQ
        · rw [if_pos hv] at ht
          injection ht with ht
          injection ht with h1 h2
          exact ⟨h1.symm, h2.symm⟩
        · rw [if_neg hv] at ht
          exact absurd ht (by simp)
      obtain ⟨hpage, hsize⟩ := htr
      rw [Nat.mod_eq_of_lt hlt] at hpage
      have hle : ((q.offset.getD 0) / rest_effective_limit q) *
          rest_effective_limit q ≤ q.offset.getD 0 := Nat.div_mul_le_self _ _
      have h2 : q.offset.getD 0 ≤ U32_MOD - 1 := by
        unfold U32_MOD at hrange ⊢
        omega
      have hoff : (ListPostsResponseDto.ofResult r).offset =
          ((q.offset.getD 0) / rest_effective_limit q) * rest_effective_limit q := by
        show satMul32 (satSub32 r.page 1) r.page_size = _
        rw [hr.1, hr.2, hpage, hsize]
        unfold satSub32 satMul32
        have hsub : (q.offset.getD 0) / rest_effective_limit q + 1 - 1 =
            (q.offset.getD 0) / rest_effective_limit q := Nat.add_sub_cancel _ _
        rw [hsub]
        exact Nat.min_eq_left (Nat.le_trans hle h2)
      refine ⟨hoff, fun hmod => ?_⟩
      rw [hoff]
      exact Nat.div_mul_cancel (Nat.dvd_iff_mod_eq_zero.mpr hmod)

/-- Witness for C10 at limit=10, offset=15 over an empty store: the echoed
offset is 10. -/
theorem C10_offset_echo_witness :
    (⟨[], 10, 10, 0⟩ : ListPostsResponseDto).offset =
        ((⟨some 10, some 15⟩ : PaginationQuery).offset.getD 0 /
            rest_effective_limit ⟨some 10, some 15⟩) *
          rest_effective_limit ⟨some 10, some 15⟩ ∧
      ((⟨some 10, some 15⟩ : PaginationQuery).offset.getD 0 %
          rest_effective_limit ⟨some 10, some 15⟩ = 0 →
        (⟨[], 10, 10, 0⟩ : ListPostsResponseDto).offset =
          (⟨some 10, some 15⟩ : PaginationQuery).offset.getD 0) :=
  C10_offset_echo ⟨[], 0⟩ ⟨some 10, some 15⟩ ⟨[], 10, 10, 0⟩ (by decide)
    (by decide) (by decide)

/-- Counterexample to C10 as stated: at limit=1, offset=4294967295
(`u32::MAX`, an exact multiple of the limit) the page computation wraps,
and the echoed offset is 0, not the requested 4294967295. -/
theorem C10_offset_echo_counterexample :
    rest_list_posts ⟨[], 0⟩ ⟨some 1, some 4294967295⟩ =
        some ⟨[], 1, 0, 0⟩ ∧
      (4294967295 : Nat) % 1 = 0 ∧ (0 : Nat) ≠ 4294967295 := by
  refine ⟨by decide, by decide, by decide⟩


/-- C1: For every login request whose username is not found in the user
store, the auth service performs the password verification against the
fixed dummy hash, whose outcome on the well-formed dummy hash is only ever
success or a credential mismatch (never a non-credential error, so the
absorbed-outcome branch covers everything the dummy verification can
produce), and returns the single generic `InvalidCredentials` error — the
caller-visible result identical to a login with an existing username and
wrong password. -/
theorem C1_login_unknown_username :
    (∀ (phf : String → String → String) pw,
      verify_password phf pw DUMMY_PASSWORD_HASH = .ok () ∨
      verify_password phf pw DUMMY_PASSWORD_HASH = .error .InvalidCredentials) ∧
    (∀ ev phf jwt s (req req2 : LoginRequest),
      LoginRequest.validate req = .ok req2 →
      s.users.find? (fun c => c.user.username == req2.username) = none →
      login ev phf jwt s req = .error .InvalidCredentials) ∧
    (∀ ev phf jwt s (req req2 : LoginRequest) creds,
      LoginRequest.validate req = .ok req2 →
      find_by_username ev s req2.username = .ok (some creds) →
      verify_password phf req2.password creds.password_hash =
        .error .InvalidCredentials →
      login ev phf jwt s req = .error .InvalidCredentials) := by
  have hdummy : ∀ (phf : String → String → String) pw,
      verify_password phf pw DUMMY_PASSWORD_HASH = .ok () ∨
      verify_password phf pw DUMMY_PASSWORD_HASH = .error .InvalidCredentials := by
    intro phf pw
    unfold verify_password
    rw [parse_hash_dummy]
    by_cases h : phf "MDEyMzQ1Njc4OWFiY2RlZg" pw =
        "gwN6hT1sNdk9kI95f7n2Gl3fL0qRmBf2Ffkj2r90/0M"
    · left; simp [h]
    · right; simp [h]
  refine ⟨hdummy, ?_, ?_⟩
  · intro ev phf jwt s req req2 hval hfind
    unfold login
    rw [hval]
    simp only [Bind.bind, Except.bind]
    unfold find_by_username
    rw [hfind]
    rcases hdummy phf req2.password with hd | hd <;> rw [hd]
  · intro ev phf jwt s req req2 creds hval hfind hverify
    unfold login
    rw [hval]
    simp only [Bind.bind, Except.bind]
    rw [hfind]
    simp only []
    rw [hverify]

/-- Witness for C1: a login against an empty store, and a login with the
right username but wrong password against a one-user store, both at
concrete inputs, yield the same `InvalidCredentials`. -/
theorem C1_login_unknown_username_witness :
    login (fun _ => true) (fun sa p => sa ++ ":" ++ p) ⟨"secret", 3600⟩
        ⟨[], 1, 0⟩ ⟨"alice", "password1"⟩ = .error .InvalidCredentials ∧
    login (fun _ => true) (fun sa p => sa ++ ":" ++ p) ⟨"secret", 3600⟩
        ⟨[⟨⟨1, "alice", "a@b.com", 0⟩,
           hash_password (fun sa p => sa ++ ":" ++ p) "SALT" "correct-password"⟩],
         2, 0⟩
        ⟨"alice", "wrong-password"⟩ = .error .InvalidCredentials :=
  ⟨C1_login_unknown_username.2.1 (fun _ => true) (fun sa p => sa ++ ":" ++ p)
      ⟨"secret", 3600⟩ ⟨[], 1, 0⟩ ⟨"alice", "password1"⟩ ⟨"alice", "password1"⟩
      (by decide) (by decide),
   C1_login_unknown_username.2.2 (fun _ => true) (fun sa p => sa ++ ":" ++ p)
      ⟨"secret", 3600⟩
      ⟨[⟨⟨1, "alice", "a@b.com", 0⟩,
         hash_password (fun sa p => sa ++ ":" ++ p) "SALT" "correct-password"⟩],
       2, 0⟩
      ⟨"alice", "wrong-password"⟩ ⟨"alice", "wrong-password"⟩
      ⟨⟨1, "alice", "a@b.com", 0⟩,
       hash_password (fun sa p => sa ++ ":" ++ p) "SALT" "correct-password"⟩
      (by decide) (by decide) (by decide)⟩


/-- C8: For every plaintext, verifying it against the hash produced by
`hash_password` on the same plaintext succeeds; and for every other
plaintext whose digest differs (the collision-freeness the spec idealises
of argon2id), verification against that hash fails with the
credential-mismatch `InvalidCredentials` — never an `Unexpected` error.
The two side conditions say the salt and digest are dollar-free, as the
PHC encoding requires. -/
theorem C8_hash_verify_roundtrip :
    ∀ (phf : String → String → String) (salt pw other : String),
      dollar ∉ salt.data → dollar ∉ (phf salt pw).data →
      verify_password phf pw (hash_password phf salt pw) = .ok () ∧
      (phf salt other ≠ phf salt pw →
        verify_password phf other (hash_password phf salt pw) =
          .error .InvalidCredentials) := by
  intro phf salt pw other hs hd
  have hp := parse_hash_encode phf salt pw hs hd
  constructor
  · unfold verify_password
    rw [hp]
    simp
  · intro hne
    unfold verify_password
    rw [hp]
    simp [hne]

/-- Witness for C8 at a concrete digest function, salt and passwords. -/
theorem C8_hash_verify_roundtrip_witness :
    verify_password (fun sa p => sa ++ ":" ++ p) "correct-password"
        (hash_password (fun sa p => sa ++ ":" ++ p) "SALT" "correct-password") =
      .ok () ∧
    ((fun (sa p : String) => sa ++ ":" ++ p) "SALT" "wrong-password" ≠
        (fun (sa p : String) => sa ++ ":" ++ p) "SALT" "correct-password" →
      verify_password (fun sa p => sa ++ ":" ++ p) "wrong-password"
          (hash_password (fun sa p => sa ++ ":" ++ p) "SALT" "correct-password") =
        .error .InvalidCredentials) :=
  C8_hash_verify_roundtrip (fun sa p => sa ++ ":" ++ p) "SALT"
    "correct-password" "wrong-password" (by decide) (by decide)


/-- C6: For every registration whose username or email collides with an
existing user, `register` returns an `AlreadyExists` error naming the
field whose unique constraint fired (`"username"` for a username
collision, otherwise `"email"`), and the result is never a success — the
token-generation step is unreachable on this path. -/
theorem C6_duplicate_registration :
    ∀ ev phf jwt salt s (req req2 : RegisterRequest),
      RegisterRequest.validate ev req = .ok req2 →
      (s.users.any (fun c => c.user.username == req2.username) = true ∨
        s.users.any (fun c => c.user.email == req2.email) = true) →
      (s.users.any (fun c => c.user.username == req2.username) = true →
        register ev phf jwt salt s req = .error (.AlreadyExists "username")) ∧
      (s.users.any (fun c => c.user.username == req2.username) = false →
        register ev phf jwt salt s req = .error (.AlreadyExists "email")) ∧
      ∀ r s2, register ev phf jwt salt s req ≠ .ok (r, s2) := by
  intro ev phf jwt salt s req req2 hval hcol
  have ha : ∀ hu : s.users.any (fun c => c.user.username == req2.username) = true,
      register ev phf jwt salt s req = .error (.AlreadyExists "username") := by
    intro hu
    unfold register
    rw [hval]
    simp only [Bind.bind, Except.bind]
    unfold create_user into_new_user
    simp only [hu, if_true]
  have hb : ∀ hu : s.users.any (fun c => c.user.username == req2.username) = false,
      register ev phf jwt salt s req = .error (.AlreadyExists "email") := by
    intro hu
    have he : s.users.any (fun c => c.user.email == req2.email) = true := by
      rcases hcol with h | h
      · rw [hu] at h; exact absurd h (by simp)
      · exact h
    unfold register
    rw [hval]
    simp only [Bind.bind, Except.bind]
    unfold create_user into_new_user
    simp only [hu, he, if_true, Bool.false_eq_true, if_false]
  refine ⟨ha, hb, ?_⟩
  intro r s2 hok
  cases hu : s.users.any (fun c => c.user.username == req2.username) with
  | true => rw [ha hu] at hok; exact Except.noConfusion hok
  | false => rw [hb hu] at hok; exact Except.noConfusion hok

/-- Witness for C6: registering an already-taken username, and an
already-taken email under a fresh username, at concrete inputs. -/
theorem C6_duplicate_registration_witness :
    (register (fun _ => true) (fun sa p => sa ++ ":" ++ p) ⟨"secret", 3600⟩
        "SALT" ⟨[⟨⟨1, "alice", "a@b.com", 0⟩, "h"⟩], 2, 0⟩
        ⟨"alice", "other@b.com", "password1"⟩ =
      .error (.AlreadyExists "username")) ∧
    (register (fun _ => true) (fun sa p => sa ++ ":" ++ p) ⟨"secret", 3600⟩
        "SALT" ⟨[⟨⟨1, "alice", "a@b.com", 0⟩, "h"⟩], 2, 0⟩
        ⟨"bob-new", "a@b.com", "password1"⟩ =
      .error (.AlreadyExists "email")) :=
  ⟨(C6_duplicate_registration (fun _ => true) (fun sa p => sa ++ ":" ++ p)
      ⟨"secret", 3600⟩ "SALT" ⟨[⟨⟨1, "alice", "a@b.com", 0⟩, "h"⟩], 2, 0⟩
      ⟨"alice", "other@b.com", "password1"⟩
      ⟨"alice", "other@b.com", "password1"⟩ (by decide)
      (Or.inl (by decide))).1 (by decide),
   (C6_duplicate_registration (fun _ => true) (fun sa p => sa ++ ":" ++ p)
      ⟨"secret", 3600⟩ "SALT" ⟨[⟨⟨1, "alice", "a@b.com", 0⟩, "h"⟩], 2, 0⟩
      ⟨"bob-new", "a@b.com", "password1"⟩
      ⟨"bob-new", "a@b.com", "password1"⟩ (by decide)
      (Or.inr (by decide))).2.1 (by decide)⟩


/-- Inversion of a successful `RegisterRequest.validate`. -/
theorem register_validate_ok (ev : String → Bool) (req req2 : RegisterRequest)
    (h : RegisterRequest.validate ev req = .ok req2) :
    req2 = ⟨rustTrim req.username, rustToLower (rustTrim req.email), req.password⟩ ∧
    3 ≤ byteLen (rustTrim req.username) ∧ byteLen (rustTrim req.username) ≤ 64 ∧
    ev (rustToLower (rustTrim req.email)) = true ∧
    8 ≤ req.password.length ∧ req.password.length ≤ 128 := by
  rw [register_validate_eq] at h
  by_cases h1 : byteLen (rustTrim req.username) < 3 ∨ byteLen (rustTrim req.username) > 64
  · rw [if_pos h1] at h; exact absurd h (by simp)
  · rw [if_neg h1] at h
    by_cases h2 : ¬ ev (rustToLower (rustTrim req.email))
    · rw [if_pos h2] at h; exact absurd h (by simp)
    · rw [if_neg h2] at h
      by_cases h3 : req.password.length < 8 ∨ req.password.length > 128
      · rw [if_pos h3] at h; exact absurd h (by simp)
      · rw [if_neg h3] at h
        injection h with h
        refine ⟨h.symm, by omega, by omega, ?_, by omega, by omega⟩
        cases hb : ev (rustToLower (rustTrim req.email)) with
        | true => rfl
        | false => exact absurd hb (by simpa using h2)

/-- C7 (amended): `register` accepts an input exactly when, after
trimming, the username is 3–64 *UTF-8 bytes* (the Rust code checks
`len()`, the byte length, not the character count), the trimmed and
lowercased email satisfies the email-syntax predicate, and the password
length counted in text characters is 8–128; any violation yields a
`Validation` error tagged with the first offending field; and for every
accepted input (on a collision-free store with a positive id sequence)
the returned user's username and email equal the trimmed/normalized
input and the returned token is non-empty. -/
theorem C7_register_validation :
    (∀ (ev : String → Bool) (req : RegisterRequest),
      (∃ req2, RegisterRequest.validate ev req = .ok req2) ↔
        (3 ≤ byteLen (rustTrim req.username) ∧
          byteLen (rustTrim req.username) ≤ 64 ∧
          ev (rustToLower (rustTrim req.email)) = true ∧
          8 ≤ req.password.length ∧ req.password.length ≤ 128)) ∧
    (∀ ev req req2, RegisterRequest.validate ev req = .ok req2 →
      req2.username = rustTrim req.username ∧
      req2.email = rustToLower (rustTrim req.email) ∧
      req2.password = req.password) ∧
    (∀ (ev : String → Bool) (req : RegisterRequest),
      ((byteLen (rustTrim req.username) < 3 ∨
          byteLen (rustTrim req.username) > 64) →
        RegisterRequest.validate ev req =
          .error (.Validation "username" "must be 3..64 chars")) ∧
      (¬ (byteLen (rustTrim req.username) < 3 ∨
          byteLen (rustTrim req.username) > 64) →
        ¬ ev (rustToLower (rustTrim req.email)) = true →
        RegisterRequest.validate ev req =
          .error (.Validation "email" "must be a valid email")) ∧
      (¬ (byteLen (rustTrim req.username) < 3 ∨
          byteLen (rustTrim req.username) > 64) →
        ev (rustToLower (rustTrim req.email)) = true →
        (req.password.length < 8 ∨ req.password.length > 128) →
        RegisterRequest.validate ev req =
          .error (.Validation "password" "must be 8..128 chars"))) ∧
    (∀ ev phf jwt salt s (req req2 : RegisterRequest),
      RegisterRequest.validate ev req = .ok req2 →
      s.users.any (fun c => c.user.username == req2.username) = false →
      s.users.any (fun c => c.user.email == req2.email) = false →
      0 < s.next_id →
      ∃ r s2, register ev phf jwt salt s req = .ok (r, s2) ∧
        r.user.username = rustTrim req.username ∧
        r.user.email = rustToLower (rustTrim req.email) ∧
        r.access_token ≠ "") := by
  refine ⟨?_, ?_, ?_, ?_⟩
  · intro ev req
    constructor
    · rintro ⟨req2, h⟩
      obtain ⟨_, h⟩ := register_validate_ok ev req req2 h
      exact h
    · rintro ⟨hb1, hb2, hev, hp1, hp2⟩
      refine ⟨⟨rustTrim req.username, rustToLower (rustTrim req.email),
        req.password⟩, ?_⟩
      rw [register_validate_eq, if_neg (by omega), if_neg (by simp [hev]),
          if_neg (by omega)]
  · intro ev req req2 h
    obtain ⟨hreq2, _⟩ := register_validate_ok ev req req2 h
    rw [hreq2]
    exact ⟨rfl, rfl, rfl⟩
  · intro ev req
    refine ⟨?_, ?_, ?_⟩
    · intro h1
      rw [register_validate_eq, if_pos h1]
    · intro h1 h2
      rw [register_validate_eq, if_neg h1, if_pos (by simpa using h2)]
    · intro h1 h2 h3
      rw [register_validate_eq, if_neg h1, if_neg (by simp [h2]), if_pos h3]
  · intro ev phf jwt salt s req req2 hval hu he hid
    obtain ⟨hreq2, hb1, hb2, hev, _, _⟩ := register_validate_ok ev req req2 hval
    have hru : req2.username = rustTrim req.username := by rw [hreq2]
    have hre : req2.email = rustToLower (rustTrim req.email) := by rw [hreq2]
    have htu : rustTrim req2.username = req2.username := by
      rw [hru]; exact rustTrim_rustTrim _
    have hte : rustTrim req2.email = req2.email := by
      rw [hre]; exact rustTrim_lower_trim _
    have hlo : rustToLower (rustTrim req2.email) = req2.email := by
      rw [hte, hre]; exact rustToLower_idem _
    have hnew : User.new ev s.next_id req2.username req2.email s.now =
        .ok ⟨s.next_id, req2.username, req2.email, s.now⟩ := by
      rw [user_new_eq, if_neg (by omega),
          if_neg (by rw [htu, hru]; omega),
          if_neg (by rw [hlo, hre]; simp [hev])]
      rw [htu, hlo]
    refine ⟨⟨⟨s.next_id, req2.username, req2.email, s.now⟩,
        generate_token jwt s.now s.next_id req2.username⟩,
      ⟨s.users ++ [⟨⟨s.next_id, req2.username, req2.email, s.now⟩,
          hash_password phf salt req2.password⟩], s.next_id + 1, s.now⟩,
      ?_, by simpa using hru, by simpa using hre,
      by simpa using generate_token_ne_empty jwt s.now s.next_id req2.username⟩
    unfold register
    rw [hval]
    simp only [Bind.bind, Except.bind]
    unfold create_user into_new_user
    simp only [hu, he, Bool.false_eq_true, if_false]
    rw [hnew]


/-- Witness for C7: a concrete accepted registration is returned
trimmed/normalized, and a concrete too-short username is rejected with a
username-tagged validation error. -/
theorem C7_register_validation_witness :
    ((⟨"alice", "a@b.com", "password1"⟩ : RegisterRequest).username =
        rustTrim " alice " ∧
      (⟨"alice", "a@b.com", "password1"⟩ : RegisterRequest).email =
        rustToLower (rustTrim " A@B.com ") ∧
      (⟨"alice", "a@b.com", "password1"⟩ : RegisterRequest).password =
        "password1") ∧
    RegisterRequest.validate (fun e => e == "a@b.com")
        ⟨"ab", "a@b.com", "password1"⟩ =
      .error (.Validation "username" "must be 3..64 chars") :=
  ⟨C7_register_validation.2.1 (fun e => e == "a@b.com")
      ⟨" alice ", " A@B.com ", "password1"⟩
      ⟨"alice", "a@b.com", "password1"⟩ (by decide),
   (C7_register_validation.2.2.1 (fun e => e == "a@b.com")
      ⟨"ab", "a@b.com", "password1"⟩).1 (by decide)⟩

/-- Counterexample to C7 as stated: the two-character username "ЙЦ" is
four UTF-8 bytes, so the code accepts it even though its trimmed
character count is 2 < 3 — the username bound is a byte-length bound, not
a character-count bound. -/
theorem C7_register_validation_counterexample :
    RegisterRequest.validate (fun e => e == "a@b.com")
        ⟨"ЙЦ", "a@b.com", "password1"⟩ =
      .ok ⟨"ЙЦ", "a@b.com", "password1"⟩ ∧
    (rustTrim "ЙЦ").length = 2 ∧ byteLen (rustTrim "ЙЦ") = 4 := by
  refine ⟨by decide, by decide, by decide⟩


/-- Inversion of a successful `UpdatePostRequest.validate`. -/
theorem update_validate_ok (req vreq : UpdatePostRequest)
    (h : UpdatePostRequest.validate req = .ok vreq) :
    vreq = ⟨rustTrim req.title, rustTrim req.content⟩ ∧
    1 ≤ byteLen (rustTrim req.title) ∧ byteLen (rustTrim req.title) ≤ 255 ∧
    1 ≤ byteLen (rustTrim req.content) := by
  rw [update_validate_eq] at h
  by_cases h1 : byteLen (rustTrim req.title) = 0 ∨ byteLen (rustTrim req.title) > 255
  · rw [if_pos h1] at h; exact absurd h (by simp)
  · rw [if_neg h1] at h
    by_cases h2 : byteLen (rustTrim req.content) = 0
    · rw [if_pos h2] at h; exact absurd h (by simp)
    · rw [if_neg h2] at h
      injection h with h
      exact ⟨h.symm, by omega, by omega, by omega⟩

/-- C2 (amended): on a well-formed store holding a post `p`, an update by
a non-owner actor returns `NotFound` — not `Forbidden`: the single
conditional `UPDATE ... WHERE id AND author_id` matches no row and the
service folds that into `NotFound` — while a delete by a non-owner
returns `Forbidden`; both leave the store unchanged.  For the owner,
update succeeds with the returned post's `updated_at` advanced to the
store clock (strictly later than before whenever the clock has moved),
and delete succeeds. -/
theorem C2_owner_mutation :
    ∀ (s : PostStore) (actor pid : Int) (p : Post)
      (req vreq : UpdatePostRequest),
      PostStore.WF s →
      s.posts.find? (fun q => q.id == pid) = some p →
      UpdatePostRequest.validate req = .ok vreq →
      (p.author_id ≠ actor →
        update_post s actor pid req =
          (.error (.NotFound ("post id: " ++ toString pid)), s) ∧
        delete_post s s actor pid = (.error .Forbidden, s)) ∧
      (p.author_id = actor →
        p.updated_at < s.now →
        (∃ p2, (update_post s actor pid req).1 = .ok p2 ∧
          p2.updated_at = s.now ∧ p.updated_at < p2.updated_at ∧
          p2.title = rustTrim req.title ∧ p2.content = rustTrim req.content ∧
          p2.id = p.id ∧ p2.author_id = p.author_id) ∧
        (delete_post s s actor pid).1 = .ok ()) := by
  intro s actor pid p req vreq hWF hfind hvreq
  have hmem : p ∈ s.posts := List.mem_of_find?_eq_some hfind
  have hwfp : Post.WFrow p := hWF.1 p hmem
  have hget : repo_get_post s pid = .ok (some p) := by
    unfold repo_get_post
    rw [hfind]
    simp only [Bind.bind, Except.bind, wfrow_map_row p hwfp]
  constructor
  · intro hauthor
    constructor
    · unfold update_post
      rw [hvreq]
      simp only []
      unfold update_post_owned
      rw [find_owned_none s.posts pid actor p hWF.2 hfind hauthor]
    · unfold delete_post
      rw [hget]
      simp only []
      rw [if_pos hauthor]
  · intro hauthor hnow
    obtain ⟨hid, hauth, _, _, hca⟩ := wfrow_facts p hwfp
    obtain ⟨hv, ht1, ht2, hc1⟩ := update_validate_ok req vreq hvreq
    have htt : rustTrim vreq.title = vreq.title := by
      rw [hv]; exact rustTrim_rustTrim _
    have htc : rustTrim vreq.content = vreq.content := by
      rw [hv]; exact rustTrim_rustTrim _
    have hbt : byteLen vreq.title = byteLen (rustTrim req.title) := by rw [hv]
    have hbc : byteLen vreq.content = byteLen (rustTrim req.content) := by rw [hv]
    constructor
    · refine ⟨⟨p.id, vreq.title, vreq.content, p.author_id, p.created_at, s.now⟩,
        ?_, rfl, hnow, by rw [hv], by rw [hv], rfl, rfl⟩
      unfold update_post
      rw [hvreq]
      simp only []
      unfold update_post_owned
      rw [find_owned_some s.posts pid actor p hfind hauthor]
      simp only []
      have hrow : map_row_to_post
          ⟨p.id, vreq.title, vreq.content, p.author_id, p.created_at, s.now⟩ =
          .ok ⟨p.id, vreq.title, vreq.content, p.author_id, p.created_at, s.now⟩ := by
        unfold map_row_to_post
        rw [post_new_eq, if_neg (by dsimp only; omega),
            if_neg (by dsimp only; omega),
            if_neg (by dsimp only; rw [htt, hbt]; omega),
            if_neg (by dsimp only; rw [htc, hbc]; omega),
            if_neg (by dsimp only; omega)]
        dsimp only
        rw [htt, htc]
      rw [hrow]
    · unfold delete_post
      rw [hget]
      simp only []
      rw [if_neg (by simp [hauthor])]
      unfold repo_delete_post
      have hany : s.posts.any (fun q => q.id == pid) = true := by
        have hpid : p.id = pid := by simpa using List.find?_some hfind
        exact List.any_eq_true.mpr ⟨p, hmem, by simp [hpid]⟩
      simp only [hany]
      simp


/-- Witness for C2 at a concrete one-post store: non-owner update yields
`NotFound` with the store unchanged, non-owner delete yields `Forbidden`
with the store unchanged, and the owner's delete succeeds. -/
theorem C2_owner_mutation_witness :
    (update_post ⟨[⟨1, "Title", "Content", 1, 0, 0⟩], 5⟩ 2 1
          ⟨" New title ", " New content "⟩ =
        (.error (.NotFound ("post id: " ++ toString (1 : Int))),
         ⟨[⟨1, "Title", "Content", 1, 0, 0⟩], 5⟩) ∧
      delete_post ⟨[⟨1, "Title", "Content", 1, 0, 0⟩], 5⟩
          ⟨[⟨1, "Title", "Content", 1, 0, 0⟩], 5⟩ 2 1 =
        (.error .Forbidden, ⟨[⟨1, "Title", "Content", 1, 0, 0⟩], 5⟩)) ∧
    (delete_post ⟨[⟨1, "Title", "Content", 1, 0, 0⟩], 5⟩
        ⟨[⟨1, "Title", "Content", 1, 0, 0⟩], 5⟩ 1 1).1 = .ok () :=
  ⟨(C2_owner_mutation ⟨[⟨1, "Title", "Content", 1, 0, 0⟩], 5⟩ 2 1
      ⟨1, "Title", "Content", 1, 0, 0⟩ ⟨" New title ", " New content "⟩
      ⟨"New title", "New content"⟩ (by decide) (by decide) (by decide)).1
      (by decide),
   ((C2_owner_mutation ⟨[⟨1, "Title", "Content", 1, 0, 0⟩], 5⟩ 1 1
      ⟨1, "Title", "Content", 1, 0, 0⟩ ⟨" New title ", " New content "⟩
      ⟨"New title", "New content"⟩ (by decide) (by decide) (by decide)).2
      (by decide) (by decide)).2⟩

/-- Counterexample to C2 as stated: at a concrete store holding post 1
owned by user 1, an update by actor 2 returns `NotFound`, not the claimed
`Forbidden` — the conditional update matches no row and the service folds
non-ownership into `NotFound`. -/
theorem C2_owner_mutation_counterexample :
    (update_post ⟨[⟨1, "Title", "Content", 1, 0, 0⟩], 5⟩ 2 1
        ⟨"New title", "New content"⟩).1 =
      .error (.NotFound ("post id: " ++ toString (1 : Int))) ∧
    (update_post ⟨[⟨1, "Title", "Content", 1, 0, 0⟩], 5⟩ 2 1
        ⟨"New title", "New content"⟩).1 ≠ .error .Forbidden := by
  refine ⟨by decide, by decide⟩

/-- C4: `delete_post` first fetches the post and returns `NotFound` when
it is absent; when the fetched post's author differs from the actor it
returns `Forbidden` without mutating anything; otherwise it issues the
repository delete, and when that delete affects zero rows (a concurrent
delete — represented by the delete running against a store `s2` that no
longer holds the row fetched from `s1`) it returns `NotFound` instead of
success.  When the row is still present the delete succeeds and removes
it. -/
theorem C4_delete_protocol :
    ∀ (s1 s2 : PostStore) (actor pid : Int),
      (s1.posts.find? (fun q => q.id == pid) = none →
        delete_post s1 s2 actor pid =
          (.error (.NotFound ("post id: " ++ toString pid)), s2)) ∧
      (∀ p, PostStore.WF s1 →
        s1.posts.find? (fun q => q.id == pid) = some p →
        p.author_id ≠ actor →
        delete_post s1 s2 actor pid = (.error .Forbidden, s2)) ∧
      (∀ p, PostStore.WF s1 →
        s1.posts.find? (fun q => q.id == pid) = some p →
        p.author_id = actor →
        s2.posts.any (fun q => q.id == pid) = false →
        delete_post s1 s2 actor pid =
          (.error (.NotFound ("post id: " ++ toString pid)),
           ⟨s2.posts.filter (fun q => ¬ q.id == pid), s2.now⟩)) ∧
      (∀ p, PostStore.WF s1 →
        s1.posts.find? (fun q => q.id == pid) = some p →
        p.author_id = actor →
        s2.posts.any (fun q => q.id == pid) = true →
        delete_post s1 s2 actor pid =
          (.ok (), ⟨s2.posts.filter (fun q => ¬ q.id == pid), s2.now⟩)) := by
  intro s1 s2 actor pid
  have hget : ∀ p, PostStore.WF s1 →
      s1.posts.find? (fun q => q.id == pid) = some p →
      repo_get_post s1 pid = .ok (some p) := by
    intro p hWF hfind
    unfold repo_get_post
    rw [hfind]
    simp only [Bind.bind, Except.bind,
      wfrow_map_row p (hWF.1 p (List.mem_of_find?_eq_some hfind))]
  refine ⟨?_, ?_, ?_, ?_⟩
  · intro hnone
    unfold delete_post repo_get_post
    rw [hnone]
  · intro p hWF hfind hauthor
    unfold delete_post
    rw [hget p hWF hfind]
    simp only []
    rw [if_pos hauthor]
  · intro p hWF hfind hauthor hgone
    unfold delete_post
    rw [hget p hWF hfind]
    simp only []
    rw [if_neg (by simp [hauthor])]
    unfold repo_delete_post
    simp only [hgone]
    simp
  · intro p hWF hfind hauthor hthere
    unfold delete_post
    rw [hget p hWF hfind]
    simp only []
    rw [if_neg (by simp [hauthor])]
    unfold repo_delete_post
    simp only [hthere]
    simp

/-- Witness for C4: the four delete outcomes at concrete stores — absent
post, non-owner actor, owner racing a concurrent delete, and owner with
the row still present. -/
theorem C4_delete_protocol_witness :
    delete_post ⟨[], 0⟩ ⟨[], 0⟩ 1 1 =
        (.error (.NotFound ("post id: " ++ toString (1 : Int))), ⟨[], 0⟩) ∧
    delete_post ⟨[⟨1, "Title", "Content", 1, 0, 0⟩], 5⟩
        ⟨[⟨1, "Title", "Content", 1, 0, 0⟩], 5⟩ 2 1 =
      (.error .Forbidden, ⟨[⟨1, "Title", "Content", 1, 0, 0⟩], 5⟩) ∧
    delete_post ⟨[⟨1, "Title", "Content", 1, 0, 0⟩], 5⟩ ⟨[], 5⟩ 1 1 =
      (.error (.NotFound ("post id: " ++ toString (1 : Int))),
       ⟨([] : List Post).filter (fun q => ¬ q.id == 1), 5⟩) ∧
    delete_post ⟨[⟨1, "Title", "Content", 1, 0, 0⟩], 5⟩
        ⟨[⟨1, "Title", "Content", 1, 0, 0⟩], 5⟩ 1 1 =
      (.ok (), ⟨[⟨1, "Title", "Content", 1, 0, 0⟩].filter
        (fun q => ¬ q.id == 1), 5⟩) :=
  ⟨(C4_delete_protocol ⟨[], 0⟩ ⟨[], 0⟩ 1 1).1 (by decide),
   (C4_delete_protocol ⟨[⟨1, "Title", "Content", 1, 0, 0⟩], 5⟩
      ⟨[⟨1, "Title", "Content", 1, 0, 0⟩], 5⟩ 2 1).2.1
      ⟨1, "Title", "Content", 1, 0, 0⟩ (by decide) (by decide) (by decide),
   (C4_delete_protocol ⟨[⟨1, "Title", "Content", 1, 0, 0⟩], 5⟩ ⟨[], 5⟩ 1 1).2.2.1
      ⟨1, "Title", "Content", 1, 0, 0⟩ (by decide) (by decide) (by decide)
      (by decide),
   (C4_delete_protocol ⟨[⟨1, "Title", "Content", 1, 0, 0⟩], 5⟩
      ⟨[⟨1, "Title", "Content", 1, 0, 0⟩], 5⟩ 1 1).2.2.2
      ⟨1, "Title", "Content", 1, 0, 0⟩ (by decide) (by decide) (by decide)
      (by decide)⟩

end Blog
